import Mathlib

/-! Quiz backend (`src/index.js`).

A shallow embedding of the four domain operations (`getQuestion`,
`getLeaderboard`, `updateScore`, `addQuestion`) and the four request handlers of
`src/index.js`, followed by the properties proved about them.

Conventions of the embedding:

* the two module-level variables `questionsData` and `leaderboardData` and the
  files written through `writeJsonFile` form an explicit `World`, passed in and
  returned by every operation (a thrown exception leaves a world too);
* a JavaScript object used as a dictionary is the list of its own properties in
  creation order; reading a property (`obj[key]`) falls back to the properties
  every plain object inherits from `Object.prototype`, and `for (k in obj)`
  visits the own keys in the order the language fixes (array indices ascending,
  then the other keys in creation order);
* `Math.random()` and `uuidv4()` are explicit arguments;
* scores are integers (JavaScript numbers in the range where `+ 1` and `- 1`
  are exact), record fields are typed as in the persisted documents, and
  `fs.writeFileSync` is taken to succeed.
-/

namespace QuizServer

/-! ## Data model -/

/-- Question record of `questions.json`: `{ id, question, options, answer, link? }`. -/
structure Question where
  id : String
  question : String
  options : List String
  answer : String
  link : Option String
deriving DecidableEq, Repr

/-- Player score record of `leaderboard.json`: `{ id, name, score }`. -/
structure Player where
  id : String
  name : String
  score : Int
deriving DecidableEq, Repr

/-- Own properties of a plain JavaScript object, in creation order. -/
abbrev Dict (α : Type) := List (String × α)

/-- What a plain object inherits under a key it does not own: one of the functions
of `Object.prototype` (only its `length` is observed here) or, under `__proto__`,
the prototype object itself. -/
inductive Inherited where
  | function (length : Nat)
  | objectPrototype
deriving DecidableEq, Repr

/-- Properties of `Object.prototype`, with the `length` of each function. -/
def objectPrototype (key : String) : Option Inherited :=
  if key = "constructor" then some (.function 1)
  else if key = "hasOwnProperty" then some (.function 1)
  else if key = "isPrototypeOf" then some (.function 1)
  else if key = "propertyIsEnumerable" then some (.function 1)
  else if key = "toString" then some (.function 0)
  else if key = "toLocaleString" then some (.function 0)
  else if key = "valueOf" then some (.function 0)
  else if key = "__defineGetter__" then some (.function 2)
  else if key = "__defineSetter__" then some (.function 2)
  else if key = "__lookupGetter__" then some (.function 1)
  else if key = "__lookupSetter__" then some (.function 1)
  else if key = "__proto__" then some .objectPrototype
  else none

/-- Result of reading `obj[key]`. -/
inductive Property (α : Type) where
  | own (value : α)
  | inherited (p : Inherited)
  | undefined
deriving DecidableEq, Repr

/-- Reading `obj[key]`: an own property first, then the prototype. -/
def getProperty {α : Type} (obj : Dict α) (key : String) : Property α :=
  match obj.lookup key with
  | some v => .own v
  | none =>
    match objectPrototype key with
    | some p => .inherited p
    | none => .undefined

/-- Assignment `obj[key] = value` to an own property: an existing property keeps its
place, a new one is created last. -/
def setProperty {α : Type} (obj : Dict α) (key : String) (value : α) : Dict α :=
  match obj with
  | [] => [(key, value)]
  | (k, v) :: rest =>
    if k = key then (k, value) :: rest else (k, v) :: setProperty rest key value

/-- Numeric value of a decimal digit. -/
def digitValue (c : Char) : Nat := c.toNat - 48

/-- A key is an array index when it is the canonical decimal form of a number
below `2^32 - 1`; the result is that number. -/
def arrayIndex? (key : String) : Option Nat :=
  let cs := key.data
  if cs = [] then none
  else if !cs.all Char.isDigit then none
  else if cs.head? = some '0' ∧ cs.length ≠ 1 then none
  else
    let n := cs.foldl (fun acc c => 10 * acc + digitValue c) 0
    if n < 4294967295 then some n else none

/-- Whether a key is an array index. -/
def isArrayIndex (key : String) : Bool := (arrayIndex? key).isSome

/-- Numeric value of an array-index key (`0` for other keys). -/
def indexValue (key : String) : Nat := (arrayIndex? key).getD 0

/-- Keys visited by `for (const k in obj)` on a plain object: array-index keys in
ascending numeric order, then the remaining keys in creation order. The inherited
properties of `Object.prototype` are not enumerable and are not visited. -/
def forInKeys {α : Type} (obj : Dict α) : List String :=
  let keys := obj.map Prod.fst
  (keys.filter isArrayIndex).insertionSort (fun a b => indexValue a ≤ indexValue b)
    ++ keys.filter (fun k => !isArrayIndex k)

/-- `String.prototype.toLowerCase`: the letters `A` to `Z` are lowered; as in
JavaScript every other ASCII character is kept, and so is, here, a character
outside ASCII. -/
def toLowerCase (s : String) : String := String.mk (s.data.map Char.toLower)

/-- `String.prototype.toUpperCase`: the letters `a` to `z` are raised; as in
JavaScript every other ASCII character is kept, and so is, here, a character
outside ASCII. -/
def toUpperCase (s : String) : String := String.mk (s.data.map Char.toUpper)

/-! ## State -/

deriving instance DecidableEq for Except

/-- One call of `writeJsonFile(filePath, data)`: `questions` is a write to
`questionsFilePath`, `leaderboard` a write to `leaderboardFilePath`. -/
inductive FileWrite where
  | questions (data : Dict (List Question))
  | leaderboard (data : Dict (List Player))
deriving DecidableEq, Repr

/-- The process state: the two in-memory documents and the writes made so far
(oldest first). -/
structure World where
  questionsData : Dict (List Question)
  leaderboardData : Dict (List Player)
  writes : List FileWrite
deriving DecidableEq, Repr

/-- A thrown exception with its `message`. The messages of `TypeError` are the
engine's (V8). -/
inductive Thrown where
  | error (message : String)
  | typeError (message : String)
deriving DecidableEq, Repr

/-- The `message` property of a thrown exception. -/
def Thrown.message : Thrown → String
  | .error m => m
  | .typeError m => m

/-- `writeJsonFile(filePath, data)`: the write is recorded after the earlier ones. -/
def writeJsonFile (w : World) (write : FileWrite) : World :=
  { w with writes := w.writes ++ [write] }

/-! ## Domain operations -/

/-- `categoryList`: `Object.keys(questionsData)`. -/
def categoryList (w : World) : List String := forInKeys w.questionsData

/-- Element `xs[i]` of an array for an integral `i`; `none` is `undefined`. -/
def elementAt {α : Type} (xs : List α) (i : Int) : Option α :=
  if i < 0 then none else xs[i.toNat]?

/-- The message of the error `getQuestion` throws. -/
def noQuestionsMessage (category : String) : String :=
  "No questions found for category \"" ++ category ++ "\"."

/-- `getQuestion(category)` with `random` the value of `Math.random()`. The value
returned is `questions[Math.floor(random * questions.length)]`; `none` is
`undefined`. A function inherited from `Object.prototype` is truthy, has a `length`
and no element; the prototype object itself is truthy and has no `length`. -/
def getQuestion (w : World) (random : ℚ) (category : String) :
    Except Thrown (Option Question) :=
  match getProperty w.questionsData category with
  | .undefined => .error (.error (noQuestionsMessage category))
  | .own questions =>
    if questions.length = 0 then .error (.error (noQuestionsMessage category))
    else .ok (elementAt questions ⌊random * (questions.length : ℚ)⌋)
  | .inherited (.function length) =>
    if length = 0 then .error (.error (noQuestionsMessage category)) else .ok none
  | .inherited .objectPrototype => .ok none

/-- Value of `leaderboardData[year] || []`. -/
inductive LeaderboardValue where
  | players (ps : List Player)
  | inherited (p : Inherited)
deriving DecidableEq, Repr

/-- `getLeaderboard(year)`: `leaderboardData[year] || []`. Arrays, functions and
objects are truthy. -/
def getLeaderboard (w : World) (year : String) : LeaderboardValue :=
  match getProperty w.leaderboardData year with
  | .own ps => .players ps
  | .inherited p => .inherited p
  | .undefined => .players []

/-- The change of score: `(option === 'correct') ? 1 : -1`. -/
def scoreDelta (option : String) : Int := if option = "correct" then 1 else -1

/-- The effect of `player.score += delta` on the array holding `player`, the first
record with the given id. -/
def bumpFirst (playerid : String) (delta : Int) : List Player → List Player
  | [] => []
  | p :: ps =>
    if p.id = playerid then { p with score := p.score + delta } :: ps
    else p :: bumpFirst playerid delta ps

/-- The message of the error `updateScore` throws. -/
def notFoundMessage (playerid : String) : String :=
  "Player with id \"" ++ playerid ++ "\" not found."

/-- The message `updateScore` returns. -/
def scoreUpdatedMessage (name : String) : String :=
  "Score updated successfully for player " ++ name ++ "."

/-- The loop of `updateScore` over the years still to visit. -/
def updateScoreLoop (w : World) (playerid option : String) :
    List String → Except Thrown String × World
  | [] => (.error (.error (notFoundMessage playerid)), w)
  | year :: rest =>
    match getProperty w.leaderboardData year with
    | .own players =>
      match players.find? (fun p => p.id = playerid) with
      | some player =>
        let players1 := bumpFirst playerid (scoreDelta option) players
        let w1 : World :=
          { w with leaderboardData := setProperty w.leaderboardData year players1 }
        (.ok (scoreUpdatedMessage player.name),
          writeJsonFile w1 (.leaderboard w1.leaderboardData))
      | none => updateScoreLoop w playerid option rest
    | .inherited _ =>
      (.error (.typeError "leaderboardData[year].find is not a function"), w)
    | .undefined =>
      (.error (.typeError "Cannot read properties of undefined (reading 'find')"), w)

/-- `updateScore(playerid, option)`; the value is the `message` of the result. -/
def updateScore (w : World) (playerid option : String) : Except Thrown String × World :=
  updateScoreLoop w playerid option (forInKeys w.leaderboardData)

/-- The message `addQuestion` returns. -/
def questionAddedMessage (category : String) : String :=
  "Question added successfully to category \"" ++ category ++ "\"."

/-- `addQuestion(category, question, options, answer)` with `uuid` the value of
`uuidv4()`; the value is the `message` and the `question` of the result. -/
def addQuestion (w : World) (uuid category question : String) (options : List String)
    (answer : String) : Except Thrown (String × Question) × World :=
  let w1 : World :=
    match getProperty w.questionsData category with
    | .undefined => { w with questionsData := setProperty w.questionsData category [] }
    | _ => w
  let newQuestion : Question :=
    { id := uuid, question := question, options := options, answer := answer, link := none }
  match getProperty w1.questionsData category with
  | .own questions =>
    let questions1 := questions ++ [newQuestion]
    let w2 : World :=
      { w1 with questionsData := setProperty w1.questionsData category questions1 }
    (.ok (questionAddedMessage category, newQuestion),
      writeJsonFile w2 (.questions w2.questionsData))
  | _ => (.error (.typeError "questionsData[category].push is not a function"), w1)

/-! ## Request handlers -/

/-- The body of a response. A function-valued `leaderboard` is left out of the JSON
text and the prototype object is written as `{}`. -/
inductive Body where
  | error (message : String)
  | quiz (question : Question) (answer : String) (link : Option String)
  | message (message : String)
  | added (message : String) (question : Question)
  | leaderboard (value : LeaderboardValue)
deriving DecidableEq, Repr

/-- A response: status code and JSON body. -/
structure Response where
  status : Nat
  body : Body
deriving DecidableEq, Repr

/-- Body of `POST /quiz`. -/
structure QuizRequest where
  category : Option String
  playerid : Option String
  name : Option String
deriving DecidableEq, Repr

/-- Body of `POST /addq`. -/
structure AddqRequest where
  category : Option String
  question : Option String
  options : Option (List String)
  answer : Option String
deriving DecidableEq, Repr

/-- The 400 answer of `POST /quiz`. -/
def quizMissing : Response :=
  ⟨400, .error "Missing parameters. Ensure category, playerid, and name are provided."⟩

/-- The 400 answer of `POST /addq`. -/
def addqMissing : Response :=
  ⟨400, .error
    "Missing parameters. Ensure category, question, options, and answer are provided."⟩

/-- Handler of `POST /quiz`. The test `!category || !playerid || !name` holds when a
field is absent or empty. Reading `question.answer` of `undefined` throws inside the
`try`. -/
def postQuiz (w : World) (random : ℚ) (req : QuizRequest) : Response × World :=
  match req.category, req.playerid, req.name with
  | some category, some playerid, some name =>
    if category = "" ∨ playerid = "" ∨ name = "" then (quizMissing, w)
    else
      match getQuestion w random (toLowerCase category) with
      | .ok (some question) => (⟨200, .quiz question question.answer question.link⟩, w)
      | .ok none =>
        (⟨500, .error "Cannot read properties of undefined (reading 'answer')"⟩, w)
      | .error e => (⟨500, .error e.message⟩, w)
  | _, _, _ => (quizMissing, w)

/-- Handler of `POST /addq`. An array of options is truthy even when empty. The
category is lowercased and the answer uppercased before `addQuestion` sees them. -/
def postAddq (w : World) (uuid : String) (req : AddqRequest) : Response × World :=
  match req.category, req.question, req.options, req.answer with
  | some category, some question, some options, some answer =>
    if category = "" ∨ question = "" ∨ answer = "" then (addqMissing, w)
    else
      match addQuestion w uuid (toLowerCase category) question options (toUpperCase answer) with
      | (.ok (message, q), w1) => (⟨200, .added message q⟩, w1)
      | (.error e, w1) => (⟨500, .error e.message⟩, w1)
  | _, _, _, _ => (addqMissing, w)

/-- Handler of `GET /leaderboard/:year`. -/
def getLeaderboardRoute (w : World) (year : String) : Response × World :=
  (⟨200, .leaderboard (getLeaderboard w year)⟩, w)

/-! ## Vocabulary of the statements -/

/-- A player id occurs in a leaderboard: the sequence stored under some year holds a
record with that id. -/
def occursIn (playerid : String) (lb : Dict (List Player)) : Prop :=
  ∃ year ∈ lb.map Prod.fst, ∃ players ∈ lb.lookup year, ∃ player ∈ players,
    player.id = playerid

instance (playerid : String) (lb : Dict (List Player)) : Decidable (occursIn playerid lb) := by
  unfold occursIn
  infer_instance

/-- A record with its score changed by `delta`; id and name are kept. -/
def withScore (p : Player) (delta : Int) : Player :=
  { id := p.id, name := p.name, score := p.score + delta }

/-- The world `updateScore` leaves after changing the sequence of `year`. -/
def scoredWorld (w : World) (year : String) (players : List Player) : World :=
  { questionsData := w.questionsData
    leaderboardData := setProperty w.leaderboardData year players
    writes := w.writes ++ [FileWrite.leaderboard (setProperty w.leaderboardData year players)] }

/-! ## Sample data -/

/-- The questions of the scenario: one category with three questions. -/
def sampleQuestions : List Question :=
  [⟨"1", "Q?", ["A", "B"], "A", none⟩, ⟨"2", "R?", ["A", "B"], "B", some "http://x"⟩,
    ⟨"3", "S?", [], "A", none⟩]

/-- A world with the category `science`. -/
def quizWorld : World := ⟨[("science", sampleQuestions)], [], []⟩

/-- A world with two players in 2024. -/
def scoreWorld : World :=
  ⟨[], [("2024", [⟨"p0", "Bo", 3⟩, ⟨"p1", "Al", 0⟩])], []⟩

theorem getProperty_of_lookup {α : Type} (obj : Dict α) (key : String) (v : α)
    (h : obj.lookup key = some v) : getProperty obj key = .own v := by
  simp [getProperty, h]

theorem getProperty_of_absent {α : Type} (obj : Dict α) (key : String)
    (h : obj.lookup key = none) (hp : objectPrototype key = none) :
    getProperty obj key = .undefined := by
  simp [getProperty, h, hp]

theorem getProperty_of_inherited {α : Type} (obj : Dict α) (key : String) (p : Inherited)
    (h : obj.lookup key = none) (hp : objectPrototype key = some p) :
    getProperty obj key = .inherited p := by
  simp [getProperty, h, hp]

theorem lookup_cons {α : Type} (k key : String) (v : α) (rest : Dict α) :
    List.lookup key ((k, v) :: rest) = if k = key then some v else List.lookup key rest := by
  by_cases h : k = key
  · subst h; simp [List.lookup]
  · have h2 : (key == k) = false := by
      simp only [beq_eq_false_iff_ne, ne_eq]
      exact fun e => h e.symm
    simp [List.lookup, h, h2]

/-- An own property sits at one place of the object; assigning to it changes that
place only. -/
theorem lookup_split {α : Type} (obj : Dict α) (key : String) (v : α)
    (h : obj.lookup key = some v) :
    ∃ before after, obj = before ++ (key, v) :: after ∧ before.lookup key = none ∧
      ∀ v1, setProperty obj key v1 = before ++ (key, v1) :: after := by
  induction obj with
  | nil => simp at h
  | cons e rest ih =>
    obtain ⟨k, x⟩ := e
    rw [lookup_cons] at h
    by_cases hk : k = key
    · subst hk
      simp only [if_true, Option.some.injEq] at h
      subst h
      exact ⟨[], rest, rfl, rfl, fun v1 => by simp [setProperty]⟩
    · simp only [hk, if_false] at h
      obtain ⟨before, after, h1, h2, h3⟩ := ih h
      refine ⟨(k, x) :: before, after, by simp [h1], ?_, fun v1 => ?_⟩
      · rw [lookup_cons]; simp [hk, h2]
      · simp [setProperty, hk, h3]

theorem lookup_setProperty_self {α : Type} (obj : Dict α) (key : String) (v : α) :
    (setProperty obj key v).lookup key = some v := by
  induction obj with
  | nil => simp [setProperty, List.lookup]
  | cons e rest ih =>
    obtain ⟨k, x⟩ := e
    by_cases hk : k = key
    · simp [setProperty, hk, lookup_cons]
    · simp [setProperty, hk, lookup_cons, ih]

theorem lookup_setProperty_other {α : Type} (obj : Dict α) (key other : String) (v : α)
    (h : other ≠ key) : (setProperty obj key v).lookup other = obj.lookup other := by
  induction obj with
  | nil =>
    have h2 : ¬ key = other := fun e => h e.symm
    simp [setProperty, lookup_cons, h2]
  | cons e rest ih =>
    obtain ⟨k, x⟩ := e
    by_cases hk : k = key
    · subst hk
      have h2 : ¬ k = other := fun e => h e.symm
      simp [setProperty, lookup_cons, h2]
    · by_cases hko : k = other
      · subst hko
        simp [setProperty, h, lookup_cons]
      · simp [setProperty, hk, lookup_cons, hko, ih]

/-- A second assignment to a key overwrites the first. -/
theorem setProperty_setProperty {α : Type} (obj : Dict α) (key : String) (v v1 : α) :
    setProperty (setProperty obj key v) key v1 = setProperty obj key v1 := by
  induction obj with
  | nil => simp [setProperty]
  | cons e rest ih =>
    obtain ⟨k, x⟩ := e
    by_cases hk : k = key
    · simp [setProperty, hk]
    · simp [setProperty, hk, ih]

/-- A key the object does not own is created last. -/
theorem setProperty_of_absent {α : Type} (obj : Dict α) (key : String) (v : α)
    (h : obj.lookup key = none) : setProperty obj key v = obj ++ [(key, v)] := by
  induction obj with
  | nil => rfl
  | cons e rest ih =>
    obtain ⟨k, x⟩ := e
    rw [lookup_cons] at h
    by_cases hk : k = key
    · simp [hk] at h
    · simp only [hk, if_false] at h
      simp [setProperty, hk, ih h]

theorem lookup_isSome_of_mem_keys {α : Type} (obj : Dict α) (key : String)
    (h : key ∈ obj.map Prod.fst) : ∃ v, obj.lookup key = some v := by
  induction obj with
  | nil => simp at h
  | cons e rest ih =>
    obtain ⟨k, x⟩ := e
    by_cases hk : k = key
    · exact ⟨x, by simp [lookup_cons, hk]⟩
    · have h2 : key ∈ rest.map Prod.fst := by
        simp only [List.map_cons, List.mem_cons] at h
        rcases h with h | h
        · exact absurd h.symm hk
        · exact h
      obtain ⟨v, hv⟩ := ih h2
      exact ⟨v, by simp [lookup_cons, hk, hv]⟩

theorem mem_keys_of_lookup {α : Type} (obj : Dict α) (key : String) (v : α)
    (h : obj.lookup key = some v) : key ∈ obj.map Prod.fst := by
  obtain ⟨before, after, h1, _, _⟩ := lookup_split obj key v h
  rw [h1]; simp

/-- The keys `for ... in` visits are the own keys, each as often as it is owned. -/
theorem forInKeys_perm {α : Type} (obj : Dict α) :
    (forInKeys obj).Perm (obj.map Prod.fst) := by
  unfold forInKeys
  refine (List.Perm.append_right _ (List.perm_insertionSort _ _)).trans ?_
  exact List.filter_append_perm _ _

theorem mem_forInKeys {α : Type} (obj : Dict α) (key : String) :
    key ∈ forInKeys obj ↔ key ∈ obj.map Prod.fst :=
  (forInKeys_perm obj).mem_iff

/-- The record `find` returns is the first with the id; `player.score += delta`
changes that element only. -/
theorem find_split (players : List Player) (playerid : String) (player : Player)
    (h : players.find? (fun p => p.id = playerid) = some player) :
    ∃ pre post, players = pre ++ player :: post ∧ (∀ q ∈ pre, q.id ≠ playerid) ∧
      player.id = playerid ∧
      ∀ delta, bumpFirst playerid delta players = pre ++ withScore player delta :: post := by
  induction players with
  | nil => simp at h
  | cons p ps ih =>
    by_cases hp : p.id = playerid
    · simp only [List.find?, hp, decide_True, Option.some.injEq] at h
      subst h
      exact ⟨[], ps, rfl, by simp, hp, fun delta => by simp [bumpFirst, hp, withScore]⟩
    · simp only [List.find?, hp, decide_False] at h
      obtain ⟨pre, post, h1, h2, h3, h4⟩ := ih h
      refine ⟨p :: pre, post, by simp [h1], ?_, h3, fun delta => ?_⟩
      · intro q hq
        simp only [List.mem_cons] at hq
        rcases hq with hq | hq
        · subst hq; exact hp
        · exact h2 q hq
      · simp [bumpFirst, hp, h4]

theorem find_none_iff (players : List Player) (playerid : String) :
    players.find? (fun p => p.id = playerid) = none ↔ ∀ q ∈ players, q.id ≠ playerid := by
  simp [List.find?_eq_none]

/-- The loop of `updateScore` over own keys: either no visited year holds the id and
the not-found error is thrown with the world untouched, or the first visited year
that holds it is the one changed. -/
theorem updateScoreLoop_cases (w : World) (playerid option : String) :
    ∀ keys : List String, (∀ k ∈ keys, k ∈ w.leaderboardData.map Prod.fst) →
      ((∀ k ∈ keys, ∀ ps, w.leaderboardData.lookup k = some ps →
          ∀ q ∈ ps, q.id ≠ playerid) ∧
        updateScoreLoop w playerid option keys =
          (.error (.error (notFoundMessage playerid)), w)) ∨
      (∃ ks1 year ks2 players player,
        keys = ks1 ++ year :: ks2 ∧
        (∀ k ∈ ks1, ∀ ps, w.leaderboardData.lookup k = some ps →
          ∀ q ∈ ps, q.id ≠ playerid) ∧
        w.leaderboardData.lookup year = some players ∧
        players.find? (fun p => p.id = playerid) = some player ∧
        updateScoreLoop w playerid option keys =
          (.ok (scoreUpdatedMessage player.name),
            scoredWorld w year (bumpFirst playerid (scoreDelta option) players))) := by
  intro keys
  induction keys with
  | nil =>
    intro _
    left
    exact ⟨by simp, rfl⟩
  | cons year rest ih =>
    intro hkeys
    obtain ⟨players, hplayers⟩ :=
      lookup_isSome_of_mem_keys w.leaderboardData year (hkeys year (by simp))
    have hget := getProperty_of_lookup _ _ _ hplayers
    cases hfind : players.find? (fun p => p.id = playerid) with
    | some player =>
      right
      refine ⟨[], year, rest, players, player, rfl, by simp, hplayers, hfind, ?_⟩
      simp [updateScoreLoop, hget, hfind, scoredWorld, writeJsonFile]
    | none =>
      have hstep : updateScoreLoop w playerid option (year :: rest) =
          updateScoreLoop w playerid option rest := by
        simp [updateScoreLoop, hget, hfind]
      have hnone := (find_none_iff players playerid).1 hfind
      rcases ih (fun k hk => hkeys k (by simp [hk])) with ⟨h1, h2⟩ | h
      · left
        refine ⟨?_, by rw [hstep, h2]⟩
        intro k hk ps hps
        simp only [List.mem_cons] at hk
        rcases hk with hk | hk
        · subst hk
          rw [hplayers] at hps
          cases hps
          exact hnone
        · exact h1 k hk ps hps
      · right
        obtain ⟨ks1, y, ks2, ps, player, e1, e2, e3, e4, e5⟩ := h
        refine ⟨year :: ks1, y, ks2, ps, player, by simp [e1], ?_, e3, e4, by rw [hstep, e5]⟩
        intro k hk ps1 hps1
        simp only [List.mem_cons] at hk
        rcases hk with hk | hk
        · subst hk
          rw [hplayers] at hps1
          cases hps1
          exact hnone
        · exact e2 k hk ps1 hps1

/-- What `updateScore` does, in full: either the id occurs nowhere, the not-found
error is thrown and the world is untouched, or the first record with the id, in the
first year of the `for ... in` order that holds one, is the one record changed. -/
theorem updateScore_cases (w : World) (playerid option : String) :
    (¬ occursIn playerid w.leaderboardData ∧
      updateScore w playerid option = (.error (.error (notFoundMessage playerid)), w)) ∨
    (∃ ks1 year ks2 before after pre post player,
      forInKeys w.leaderboardData = ks1 ++ year :: ks2 ∧
      (∀ k ∈ ks1, ∀ ps, w.leaderboardData.lookup k = some ps →
        ∀ q ∈ ps, q.id ≠ playerid) ∧
      w.leaderboardData = before ++ (year, pre ++ player :: post) :: after ∧
      before.lookup year = none ∧
      (∀ q ∈ pre, q.id ≠ playerid) ∧
      player.id = playerid ∧
      updateScore w playerid option =
        (.ok (scoreUpdatedMessage player.name),
          { questionsData := w.questionsData
            leaderboardData :=
              before ++ (year, pre ++ withScore player (scoreDelta option) :: post) :: after
            writes := w.writes ++ [FileWrite.leaderboard
              (before ++ (year, pre ++ withScore player (scoreDelta option) :: post) :: after)] })) := by
  rcases updateScoreLoop_cases w playerid option (forInKeys w.leaderboardData)
      (fun k hk => (mem_forInKeys _ k).1 hk) with ⟨h1, h2⟩ | h
  · left
    refine ⟨?_, h2⟩
    rintro ⟨year, hyear, players, hl, player, hm, hid⟩
    exact h1 year ((mem_forInKeys _ year).2 hyear) players hl player hm hid
  · right
    obtain ⟨ks1, year, ks2, players, player, e1, e2, e3, e4, e5⟩ := h
    obtain ⟨pre, post, f1, f2, f3, f4⟩ := find_split players playerid player e4
    obtain ⟨before, after, g1, g2, g3⟩ := lookup_split w.leaderboardData year players e3
    refine ⟨ks1, year, ks2, before, after, pre, post, player, e1, e2, ?_, g2, f2, f3, ?_⟩
    · rw [g1, f1]
    · unfold updateScore
      rw [e5]
      simp only [scoredWorld, g3, f4]

/-- C2. `updateScore` throws exactly when the player id occurs in no year's sequence;
then, whatever the option, the error is the not-found error with the message
`Player with id "<id>" not found.`, and the world is the one before the call: the
leaderboard in memory is as it was and nothing was written. -/
theorem updateScore_not_found (w : World) (playerid option : String) :
    ((∃ e, (updateScore w playerid option).1 = .error e) ↔
      ¬ occursIn playerid w.leaderboardData) ∧
    (¬ occursIn playerid w.leaderboardData →
      updateScore w playerid option =
        (.error (.error ("Player with id \"" ++ playerid ++ "\" not found.")), w)) := by
  rcases updateScore_cases w playerid option with ⟨hno, hres⟩ | hyes
  · refine ⟨⟨fun _ => hno, fun _ => ⟨_, by rw [hres]⟩⟩, fun _ => ?_⟩
    rw [hres]; rfl
  · obtain ⟨_, year, _, before, after, pre, post, player, _, _, e3, e4, _, e6, e7⟩ := hyes
    have hocc : occursIn playerid w.leaderboardData := by
      have hl : w.leaderboardData.lookup year = some (pre ++ player :: post) := by
        rw [e3, List.lookup_append, e4]
        simp [List.lookup]
      exact ⟨year, mem_keys_of_lookup _ _ _ hl, pre ++ player :: post, hl, player,
        by simp, e6⟩
    refine ⟨⟨?_, fun hno => absurd hocc hno⟩, fun hno => absurd hocc hno⟩
    rintro ⟨e, he⟩
    rw [e7] at he
    cases he

/-- Instance of C2: an id that is in no year. -/
theorem updateScore_not_found_witness :
    ¬ occursIn "p2" scoreWorld.leaderboardData ∧
    updateScore scoreWorld "p2" "correct" =
      (.error (.error "Player with id \"p2\" not found."), scoreWorld) :=
  ⟨by decide, (updateScore_not_found scoreWorld "p2" "correct").2 (by decide)⟩

/-! ## `getQuestion` and `POST /quiz` -/

/-- `Math.floor(random * length)` is an index of a non-empty array when the draw is
in `[0, 1)`. -/
theorem floor_index_bounds (random : ℚ) (n : Nat) (h0 : 0 ≤ random) (h1 : random < 1)
    (hn : 0 < n) : 0 ≤ ⌊random * (n : ℚ)⌋ ∧ ⌊random * (n : ℚ)⌋ < (n : Int) := by
  have hn1 : (0 : ℚ) < (n : ℚ) := by exact_mod_cast hn
  constructor
  · exact Int.floor_nonneg.2 (mul_nonneg h0 hn1.le)
  · rw [Int.floor_lt]
    push_cast
    nlinarith

/-- On an own, non-empty category `getQuestion` returns the element at the floor
index, which is an element of the sequence. -/
theorem getQuestion_of_own (w : World) (random : ℚ) (category : String)
    (questions : List Question)
    (hkey : w.questionsData.lookup category = some questions) (hne : questions ≠ [])
    (h0 : 0 ≤ random) (h1 : random < 1) :
    ∃ (i : Nat) (q : Question), (i : Int) = ⌊random * (questions.length : ℚ)⌋ ∧
      i < questions.length ∧ questions[i]? = some q ∧ q ∈ questions ∧
      getQuestion w random category = .ok (some q) := by
  have hlen : 0 < questions.length := List.length_pos.2 hne
  obtain ⟨hlo, hhi⟩ := floor_index_bounds random questions.length h0 h1 hlen
  obtain ⟨i, hi⟩ := Int.eq_ofNat_of_zero_le hlo
  have hi2 : i < questions.length := by
    rw [hi] at hhi
    exact_mod_cast hhi
  refine ⟨i, questions[i], hi.symm, hi2, List.getElem?_eq_getElem hi2,
    List.getElem_mem hi2, ?_⟩
  have hget := getProperty_of_lookup _ _ _ hkey
  have hlen0 : questions.length ≠ 0 := Nat.pos_iff_ne_zero.1 hlen
  simp only [getQuestion, hget, hlen0, if_false, elementAt, hi]
  simp [List.getElem?_eq_getElem hi2]

/-- Whenever `getQuestion` throws, the error carries the not-found message for the
category asked. -/
theorem getQuestion_error_message (w : World) (random : ℚ) (category : String)
    (e : Thrown) (h : getQuestion w random category = .error e) :
    e = .error ("No questions found for category \"" ++ category ++ "\".") := by
  unfold getQuestion at h
  split at h
  · cases h; rfl
  · split at h
    · cases h; rfl
    · cases h
  · split at h
    · cases h; rfl
    · cases h
  · cases h

/-- For a category that is not the name of a property of `Object.prototype`,
`getQuestion` throws exactly when the category is absent or its sequence is empty. -/
theorem getQuestion_fails_iff (w : World) (random : ℚ) (category : String)
    (hplain : objectPrototype category = none) :
    (∃ e, getQuestion w random category = .error e) ↔
      (w.questionsData.lookup category = none ∨ w.questionsData.lookup category = some []) := by
  cases hl : w.questionsData.lookup category with
  | none =>
    have hget := getProperty_of_absent _ _ hl hplain
    simp [getQuestion, hget]
  | some questions =>
    have hget := getProperty_of_lookup _ _ _ hl
    cases questions with
    | nil => simp [getQuestion, hget]
    | cons q qs => simp [getQuestion, hget]

/-- An empty sequence makes `getQuestion` throw, whatever the category. -/
theorem getQuestion_of_empty (w : World) (random : ℚ) (category : String)
    (h : w.questionsData.lookup category = some []) :
    getQuestion w random category =
      .error (.error ("No questions found for category \"" ++ category ++ "\".")) := by
  have hget := getProperty_of_lookup _ _ _ h
  simp [getQuestion, hget, noQuestionsMessage]

/-- C4 at the category `"constructor"`, which the store does not hold: `getQuestion`
reads the function inherited from `Object.prototype`, whose `length` is 1, and
returns `undefined` instead of throwing; `POST /quiz` then answers 500 with the
engine's message, not with the not-found message. -/
theorem getQuestion_inherited_category :
    quizWorld.questionsData.lookup "constructor" = none ∧
    getQuestion quizWorld (1 / 2) "constructor" = .ok none ∧
    postQuiz quizWorld (1 / 2) ⟨some "constructor", some "p1", some "Al"⟩ =
      (⟨500, .error "Cannot read properties of undefined (reading 'answer')"⟩, quizWorld) := by
  decide

/-! ## `PUT /scores` -/

/-- The world `addQuestion` leaves for a category it can write to. -/
theorem addQuestion_of_writable (w : World) (uuid category question : String)
    (options : List String) (answer : String)
    (hw : w.questionsData.lookup category ≠ none ∨ objectPrototype category = none) :
    addQuestion w uuid category question options answer =
      (.ok ("Question added successfully to category \"" ++ category ++ "\".",
          ⟨uuid, question, options, answer, none⟩),
        { questionsData := setProperty w.questionsData category
            ((w.questionsData.lookup category).getD [] ++ [⟨uuid, question, options, answer, none⟩])
          leaderboardData := w.leaderboardData
          writes := w.writes ++ [FileWrite.questions (setProperty w.questionsData category
            ((w.questionsData.lookup category).getD [] ++
              [⟨uuid, question, options, answer, none⟩]))] }) := by
  cases hl : w.questionsData.lookup category with
  | some questions =>
    have hget := getProperty_of_lookup _ _ _ hl
    simp [addQuestion, hget, writeJsonFile, questionAddedMessage]
  | none =>
    have hplain : objectPrototype category = none := by
      rcases hw with hw | hw
      · exact absurd hl hw
      · exact hw
    have hget := getProperty_of_absent _ _ hl hplain
    have hget2 : getProperty (setProperty w.questionsData category []) category = .own [] :=
      getProperty_of_lookup _ _ _ (lookup_setProperty_self _ _ _)
    have hset := setProperty_setProperty w.questionsData category []
      [(⟨uuid, question, options, answer, none⟩ : Question)]
    simp [addQuestion, hget, hget2, hset, writeJsonFile, questionAddedMessage]

/-- For a category the store holds, or one that is not the name of a property of
`Object.prototype`, `addQuestion` appends one record with the id drawn and the
fields supplied (no validation) to the category's sequence, the empty one if the
category was absent, leaves every other category alone, returns that record and
writes the new store. -/
theorem addQuestion_appends (w : World) (uuid category question : String)
    (options : List String) (answer : String)
    (hw : w.questionsData.lookup category ≠ none ∨ objectPrototype category = none) :
    (addQuestion w uuid category question options answer).1 =
      .ok ("Question added successfully to category \"" ++ category ++ "\".",
        ⟨uuid, question, options, answer, none⟩) ∧
    (addQuestion w uuid category question options answer).2.questionsData.lookup category =
      some ((w.questionsData.lookup category).getD [] ++
        [⟨uuid, question, options, answer, none⟩]) ∧
    (∀ other, other ≠ category →
      (addQuestion w uuid category question options answer).2.questionsData.lookup other =
        w.questionsData.lookup other) ∧
    (addQuestion w uuid category question options answer).2.writes =
      w.writes ++ [FileWrite.questions
        (addQuestion w uuid category question options answer).2.questionsData] ∧
    (addQuestion w uuid category question options answer).2.leaderboardData =
      w.leaderboardData := by
  rw [addQuestion_of_writable w uuid category question options answer hw]
  refine ⟨rfl, lookup_setProperty_self _ _ _, fun other ho => ?_, rfl, rfl⟩
  exact lookup_setProperty_other _ _ _ _ ho

/-- C5 at the category `"constructor"`, which the store does not hold:
`questionsData[category]` is the inherited function, so no sequence is created,
`push` is not a function and `addQuestion` throws a `TypeError`; nothing is
appended and nothing is written. -/
theorem addQuestion_inherited_category :
    quizWorld.questionsData.lookup "constructor" = none ∧
    addQuestion quizWorld "u1" "constructor" "Q?" ["A", "B"] "A" =
      (.error (.typeError "questionsData[category].push is not a function"), quizWorld) := by
  decide

/-- The last element of a sequence is drawn by `length / (length + 1)`. -/
theorem elementAt_last_draw {α : Type} (xs : List α) (x : α) :
    elementAt (xs ++ [x])
      ⌊((xs.length : ℚ) / ((xs.length : ℚ) + 1)) * (((xs ++ [x]).length : Nat) : ℚ)⌋ = some x := by
  have hpos : ((xs.length : ℚ) + 1) ≠ 0 := by positivity
  have hval : ((xs.length : ℚ) / ((xs.length : ℚ) + 1)) * (((xs ++ [x]).length : Nat) : ℚ) =
      ((xs.length : Int) : ℚ) := by
    simp only [List.length_append, List.length_singleton]
    push_cast
    field_simp
  rw [hval, Int.floor_intCast]
  simp [elementAt]

/-- After a `POST /addq` with all four fields present whose lowercased category the
store holds or is not the name of a property of `Object.prototype`: the answer is
200 with the new record (id as drawn, question and options as sent, answer in upper
case), `getQuestion` on the lowercased category does not throw for any draw in
`[0, 1)`, and for some such draw it returns the new record. -/
theorem postAddq_then_getQuestion (w : World) (uuid : String) (req : AddqRequest)
    (category question answer : String) (options : List String)
    (hc : req.category = some category) (hq : req.question = some question)
    (ho : req.options = some options) (ha : req.answer = some answer)
    (hc1 : category ≠ "") (hq1 : question ≠ "") (ha1 : answer ≠ "")
    (hw : w.questionsData.lookup (toLowerCase category) ≠ none ∨
      objectPrototype (toLowerCase category) = none) :
    (postAddq w uuid req).1 =
      ⟨200, .added
        ("Question added successfully to category \"" ++ toLowerCase category ++ "\".")
        ⟨uuid, question, options, toUpperCase answer, none⟩⟩ ∧
    (∀ random : ℚ, 0 ≤ random → random < 1 →
      ∃ q, getQuestion (postAddq w uuid req).2 random (toLowerCase category) = .ok (some q)) ∧
    (∃ random : ℚ, 0 ≤ random ∧ random < 1 ∧
      getQuestion (postAddq w uuid req).2 random (toLowerCase category) =
        .ok (some ⟨uuid, question, options, toUpperCase answer, none⟩)) := by
  obtain ⟨c, q, o, a⟩ := req
  simp only at hc hq ho ha
  subst hc hq ho ha
  have hadd := addQuestion_of_writable w uuid (toLowerCase category) question options
    (toUpperCase answer) hw
  have hpost : postAddq w uuid ⟨some category, some question, some options, some answer⟩ =
      (⟨200, .added
        ("Question added successfully to category \"" ++ toLowerCase category ++ "\".")
        ⟨uuid, question, options, toUpperCase answer, none⟩⟩,
        (addQuestion w uuid (toLowerCase category) question options (toUpperCase answer)).2) := by
    simp [postAddq, hc1, hq1, ha1, hadd]
  have hlook := (addQuestion_appends w uuid (toLowerCase category) question options
    (toUpperCase answer) hw).2.1
  rw [hpost]
  refine ⟨rfl, fun random h0 h1 => ?_, ?_⟩
  · obtain ⟨_, r, _, _, _, _, hres⟩ := getQuestion_of_own _ random _ _ hlook (by simp) h0 h1
    exact ⟨r, hres⟩
  · set old := (w.questionsData.lookup (toLowerCase category)).getD [] with hold
    refine ⟨(old.length : ℚ) / ((old.length : ℚ) + 1), by positivity, ?_, ?_⟩
    · rw [div_lt_one (by positivity)]
      linarith
    · have hget := getProperty_of_lookup _ _ _ hlook
      simp only [getQuestion, hget]
      rw [if_neg (by simp)]
      rw [elementAt_last_draw]

/-- C6 at the category `"constructor"`: all four fields are present, the request is
answered 500, no record is added and nothing is written. -/
theorem postAddq_inherited_category :
    postAddq quizWorld "u1" ⟨some "constructor", some "Q?", some ["A", "B"], some "a"⟩ =
      (⟨500, .error "questionsData[category].push is not a function"⟩, quizWorld) := by
  decide

/-! ## `getLeaderboard` and `GET /leaderboard/:year` -/

/-- For a year the leaderboard holds, `getLeaderboard` returns its sequence as
stored; for an absent year that is not the name of a property of
`Object.prototype` it returns the empty sequence. -/
theorem getLeaderboard_of_plain (w : World) (year : String) :
    (∀ players, w.leaderboardData.lookup year = some players →
      getLeaderboard w year = .players players) ∧
    (w.leaderboardData.lookup year = none → objectPrototype year = none →
      getLeaderboard w year = .players []) := by
  constructor
  · intro players h
    simp [getLeaderboard, getProperty_of_lookup _ _ _ h]
  · intro h hp
    simp [getLeaderboard, getProperty_of_absent _ _ h hp]

/-- C7 at the year `"constructor"`, which the leaderboard does not hold:
`leaderboardData[year]` is the inherited function, which is truthy, so
`getLeaderboard` returns it and not an empty sequence; the 200 answer of
`GET /leaderboard/constructor` carries no sequence. -/
theorem getLeaderboard_inherited_year :
    scoreWorld.leaderboardData.lookup "constructor" = none ∧
    getLeaderboard scoreWorld "constructor" = .inherited (.function 1) ∧
    getLeaderboardRoute scoreWorld "constructor" =
      (⟨200, .leaderboard (.inherited (.function 1))⟩, scoreWorld) := by
  decide

end QuizServer
